import Mathlib

/-!
Verification of the crypto-candlestick dashboard (`src/app.py`).

The single source file fetches Binance kline data (`fetch_data`), shapes it
into a table of price points, derives indicator columns with pandas / the
`ta` library / scikit-learn, and renders a chart in the Dash callback
`update_chart`.

Shallow embedding conventions:
* pandas float columns are modelled by `ℚ` (exact arithmetic over the same
  field operations the code performs); a pandas `NaN` cell is `Option.none`;
* a DataFrame is a structure of parallel column lists (`IndicatorFrame`);
* the HTTP layer is modelled by an explicit `FetchOutcome` value describing
  what `requests.get` produced, so `fetch_data` becomes a total function of
  that outcome — the `try/except` in the source maps every error branch to
  the empty frame;
* timestamps are epoch milliseconds (`Int`).  The source converts them to
  the America/Sao_Paulo timezone for display; that conversion is an
  order-preserving injection on instants, so ordering statements are made on
  the raw millisecond values.
-/

namespace CryptoCandles

/-- One parsed price row: the five columns the source keeps after
`df[["time", "open", "high", "low", "close"]]`. -/
structure PricePoint where
  time : Int
  open_ : ℚ
  high : ℚ
  low : ℚ
  close : ℚ
deriving Repr, DecidableEq

/-- One raw kline row from the JSON payload.  The exchange sends the numeric
fields as strings; a field that does not parse as a float is `none`
(`astype(float)` then raises, which the `except` turns into an empty frame).
The seven remaining columns of the 12-element row are dropped by the source's
column selection immediately after the DataFrame is built, so they are not
modelled. -/
structure RawRow where
  openTime : Int
  open_ : Option ℚ
  high : Option ℚ
  low : Option ℚ
  close : Option ℚ
deriving Repr, DecidableEq

/-- Body of the HTTP response, as seen by `response.json()` and the
`isinstance(data, list)` check. -/
inductive Payload where
  /-- `response.json()` raises (body is not JSON). -/
  | notJson : Payload
  /-- JSON, but not a list — the `isinstance` check fails. -/
  | notList : Payload
  /-- a JSON list whose rows do not have the 12-column shape, so
  `pd.DataFrame(data, columns=[...])` raises. -/
  | badShape : Payload
  /-- a JSON list of 12-element kline rows. -/
  | rows (rs : List RawRow) : Payload
deriving Repr, DecidableEq

/-- An HTTP response that came back: status code plus body. -/
structure HttpResponse where
  status : Nat
  body : Payload
deriving Repr, DecidableEq

/-- What `requests.get` produced: a network-level error (raises inside
`requests.get`) or a response. -/
inductive FetchOutcome where
  | netErr : FetchOutcome
  | ok (resp : HttpResponse) : FetchOutcome
deriving Repr, DecidableEq

/-- `df["time"]`, `df["open"]`… : parse one raw row into a `PricePoint`;
fails (`astype(float)` raises) when any price field is unparseable. -/
def parseRow (r : RawRow) : Option PricePoint :=
  match r.open_, r.high, r.low, r.close with
  | some o, some h, some lo, some c => some ⟨r.openTime, o, h, lo, c⟩
  | _, _, _, _ => none

/-- Parse all rows; any bad row makes the whole refresh fail (the source's
`astype(float)` is all-or-nothing, and the exception is caught). -/
def parseRows : List RawRow → Option (List PricePoint)
  | [] => some []
  | r :: rs =>
    match parseRow r, parseRows rs with
    | some p, some ps => some (p :: ps)
    | _, _ => none

/-- Column extraction `df["close"]`. -/
def closes (s : List PricePoint) : List ℚ := s.map PricePoint.close

/-- Column extraction `df["high"]`. -/
def highs (s : List PricePoint) : List ℚ := s.map PricePoint.high

/-- Column extraction `df["low"]`. -/
def lows (s : List PricePoint) : List ℚ := s.map PricePoint.low

/-- `Series.rolling(window=w).mean()`: `none` while fewer than `w`
observations are available, else the mean of the last `w` values. -/
def rollingMean (w : ℕ) (l : List ℚ) : List (Option ℚ) :=
  (List.range l.length).map fun i =>
    if i + 1 < w then none
    else some (((l.drop (i + 1 - w)).take w).sum / (w : ℚ))

/-- `df["close"].rolling(window=20).mean()` (source line 66). -/
def sma_20 (l : List ℚ) : List (Option ℚ) := rollingMean 20 l

/-- Tail of `Series.ewm(alpha, adjust=False).mean()` after the seed:
each output is `α·x + (1-α)·prev`. -/
def ewmAux (α : ℚ) (prev : ℚ) : List ℚ → List ℚ
  | [] => []
  | x :: xs => (α * x + (1 - α) * prev) :: ewmAux α (α * x + (1 - α) * prev) xs

/-- `Series.ewm(alpha, adjust=False).mean()`: seeded with the first value,
then the standard recursive exponential smoothing. -/
def ewmMean (α : ℚ) : List ℚ → List ℚ
  | [] => []
  | x :: xs => x :: ewmAux α x xs

/-- `df["close"].ewm(span=20, adjust=False).mean()` (source line 67):
smoothing factor `2/(span+1) = 2/21`. -/
def ema_20 (l : List ℚ) : List ℚ := ewmMean (2 / 21) l

theorem ewmAux_length (α prev : ℚ) (l : List ℚ) :
    (ewmAux α prev l).length = l.length := by
  induction l generalizing prev with
  | nil => rfl
  | cons x xs ih => simp [ewmAux, ih]

theorem ewmMean_length (α : ℚ) (l : List ℚ) :
    (ewmMean α l).length = l.length := by
  cases l with
  | nil => rfl
  | cons x xs => simp [ewmMean, ewmAux_length]

theorem ewmAux_getD_succ (α prev : ℚ) (l : List ℚ) (i : ℕ)
    (h : i + 1 < l.length) :
    (ewmAux α prev l).getD (i + 1) 0 =
      α * l.getD (i + 1) 0 + (1 - α) * (ewmAux α prev l).getD i 0 := by
  induction l generalizing prev i with
  | nil => simp at h
  | cons x xs ih =>
    cases i with
    | zero =>
      cases xs with
      | nil => simp at h
      | cons y ys => simp [ewmAux]
    | succ j =>
      have hj : j + 1 < xs.length := by
        simpa using Nat.lt_of_succ_lt_succ h
      simpa [ewmAux] using ih (α * x + (1 - α) * prev) j hj

theorem ema_20_head (c : ℚ) (cs : List ℚ) :
    (ema_20 (c :: cs)).getD 0 0 = c := by
  simp [ema_20, ewmMean]

theorem ema_20_step (l : List ℚ) (i : ℕ) (h : i + 1 < l.length) :
    (ema_20 l).getD (i + 1) 0 =
      2 / 21 * l.getD (i + 1) 0 + (1 - 2 / 21) * (ema_20 l).getD i 0 := by
  cases l with
  | nil => simp at h
  | cons x xs =>
    cases i with
    | zero =>
      cases xs with
      | nil => simp at h
      | cons y ys => simp [ema_20, ewmMean, ewmAux]
    | succ j =>
      have hj : j + 1 < xs.length := by
        simpa using Nat.lt_of_succ_lt_succ h
      simpa [ema_20, ewmMean] using ewmAux_getD_succ (2 / 21) x xs j hj

theorem ewmAux_replicate (α v : ℚ) (k : ℕ) :
    ewmAux α v (List.replicate k v) = List.replicate k v := by
  induction k with
  | zero => rfl
  | succ m ih =>
    have hv : α * v + (1 - α) * v = v := by ring
    simp [List.replicate_succ, ewmAux, hv, ih]

theorem ema_20_replicate (m : ℕ) (v : ℚ) :
    ema_20 (List.replicate m v) = List.replicate m v := by
  cases m with
  | zero => rfl
  | succ k =>
    simp [ema_20, ewmMean, List.replicate_succ, ewmAux_replicate]

/-- `close.diff(1)`, with the leading `NaN` already replaced by `0` (the
`ta` library's `diff.where(diff > 0, 0.0)` turns the leading `NaN` into `0`
in both the gain and the loss series). -/
def diffs (l : List ℚ) : List ℚ :=
  match l with
  | [] => []
  | _ :: _ => 0 :: List.zipWith (fun a b => a - b) l.tail l

/-- Modelled from the spec: `ta.momentum.RSIIndicator(close, window=14).rsi()`
(source line 68); the `ta` library is a third-party dependency whose code is
not part of this repository.  Standard Wilder RSI: exponential smoothing
(`alpha = 1/14`, `adjust=False`) of the gain and loss series, masked for the
first `window - 1` outputs (`min_periods`), `rsi = 100 - 100/(1 + gain/loss)`.
A zero average loss gives `100` (float `inf` ratio) unless the average gain
is also zero, in which case the float `0/0` is `NaN`, i.e. `none`. -/
def rsi (l : List ℚ) : List (Option ℚ) :=
  let ups := (diffs l).map fun d => max d 0
  let downs := (diffs l).map fun d => max (-d) 0
  let emaup := ewmMean (1 / 14) ups
  let emadn := ewmMean (1 / 14) downs
  (List.range l.length).map fun i =>
    if i + 1 < 14 then none
    else
      let u := emaup.getD i 0
      let d := emadn.getD i 0
      if d = 0 then (if u = 0 then none else some 100)
      else some (100 - 100 / (1 + u / d))

/-- `df["compra"] = df["rsi"] < 30` (source line 78).  A pandas comparison
with `NaN` is `False`. -/
def compra (l : List ℚ) : List Bool :=
  (rsi l).map fun r =>
    match r with
    | some x => decide (x < 30)
    | none => false

/-- `df["venda"] = df["rsi"] > 70` (source line 79). -/
def venda (l : List ℚ) : List Bool :=
  (rsi l).map fun r =>
    match r with
    | some x => decide (70 < x)
    | none => false

/-- Modelled from the spec: `ta.trend.MACD(close, 26, 12, 9).macd()`
(source line 70), the difference of the fast and slow EMAs; only this raw
MACD line is consumed downstream. -/
def macd (l : List ℚ) : List ℚ :=
  List.zipWith (fun a b => a - b) (ewmMean (2 / 13) l) (ewmMean (2 / 27) l)

/-- Modelled from the spec: `ta.trend.CCIIndicator(high, low, close, 20).cci()`
(source line 71).  Standard CCI: typical price `(h+l+c)/3`, 20-period mean
and mean absolute deviation, `cci = (tp - mean) / (0.015 * mad)`; undefined
(`none`) while the window is unfilled or when the deviation is zero. -/
def cci (hs ls cs : List ℚ) : List (Option ℚ) :=
  let tp := (List.range cs.length).map fun i =>
    (hs.getD i 0 + ls.getD i 0 + cs.getD i 0) / 3
  (List.range cs.length).map fun i =>
    if i + 1 < 20 then none
    else
      let w := (tp.drop (i + 1 - 20)).take 20
      let m := w.sum / 20
      let mad := (w.map fun x => |x - m|).sum / 20
      if mad = 0 then none else some ((tp.getD i 0 - m) / (3 / 200 * mad))

/-- True range of row `i` (Wilder). -/
def trueRange (hs ls cs : List ℚ) : List ℚ :=
  (List.range cs.length).map fun i =>
    if i = 0 then hs.getD 0 0 - ls.getD 0 0
    else
      max (hs.getD i 0 - ls.getD i 0)
        (max |hs.getD i 0 - cs.getD (i - 1) 0| |ls.getD i 0 - cs.getD (i - 1) 0|)

/-- Positive directional movement (Wilder). -/
def dmPlus (hs ls : List ℚ) : List ℚ :=
  (List.range hs.length).map fun i =>
    if i = 0 then 0
    else
      let up := hs.getD i 0 - hs.getD (i - 1) 0
      let dn := ls.getD (i - 1) 0 - ls.getD i 0
      if dn < up ∧ 0 < up then up else 0

/-- Negative directional movement (Wilder). -/
def dmMinus (hs ls : List ℚ) : List ℚ :=
  (List.range hs.length).map fun i =>
    if i = 0 then 0
    else
      let up := hs.getD i 0 - hs.getD (i - 1) 0
      let dn := ls.getD (i - 1) 0 - ls.getD i 0
      if up < dn ∧ 0 < dn then dn else 0

/-- Modelled from the spec: `ta.trend.ADXIndicator(high, low, close, 14).adx()`
(source line 72).  Standard Wilder ADX: smooth the true range and the two
directional movements with `alpha = 1/14`, form the directional indices,
take `dx = 100·|DI+ - DI-|/(DI+ + DI-)` and smooth again. -/
def adx (hs ls cs : List ℚ) : List ℚ :=
  let str := ewmMean (1 / 14) (trueRange hs ls cs)
  let sdp := ewmMean (1 / 14) (dmPlus hs ls)
  let sdm := ewmMean (1 / 14) (dmMinus hs ls)
  let dx := (List.range cs.length).map fun i =>
    let ti := str.getD i 0
    let dip := if ti = 0 then 0 else 100 * sdp.getD i 0 / ti
    let dim := if ti = 0 then 0 else 100 * sdm.getD i 0 / ti
    if dip + dim = 0 then 0 else 100 * |dip - dim| / (dip + dim)
  ewmMean (1 / 14) dx

/-- Modelled from the spec: `ta.volatility.BollingerBands(close, window=20)`
(source lines 73-75).  The two band columns are `sma ± 2·√variance`; the
square root of a rational is irrational in general, so the embedding carries
the 20-period rolling population variance, from which both bands are the
same fixed monotone function of `(sma_20, variance)`. -/
def bollinger_var (l : List ℚ) : List (Option ℚ) :=
  (List.range l.length).map fun i =>
    if i + 1 < 20 then none
    else
      let w := (l.drop (i + 1 - 20)).take 20
      let m := w.sum / 20
      some ((w.map fun x => (x - m) ^ 2).sum / 20)

/-- `∑ x_i` for the regressor `X = np.arange(len(df))` (source line 82). -/
def sumX (n : ℕ) : ℚ := ∑ i ∈ Finset.range n, (i : ℚ)

/-- `∑ x_i²` for the regressor `X = np.arange(len(df))`. -/
def sumX2 (n : ℕ) : ℚ := ∑ i ∈ Finset.range n, (i : ℚ) ^ 2

/-- `∑ y_i` over the close column. -/
def sumY (l : List ℚ) : ℚ := ∑ i ∈ Finset.range l.length, l.getD i 0

/-- `∑ x_i·y_i`. -/
def sumXY (l : List ℚ) : ℚ :=
  ∑ i ∈ Finset.range l.length, (i : ℚ) * l.getD i 0

/-- Denominator `n·∑x² - (∑x)²` of the least-squares slope. -/
def olsDen (n : ℕ) : ℚ := (n : ℚ) * sumX2 n - sumX n ^ 2

/-- Numerator `n·∑xy - ∑x·∑y` of the least-squares slope. -/
def olsNum (l : List ℚ) : ℚ :=
  (l.length : ℚ) * sumXY l - sumX l.length * sumY l

/-- `LinearRegression().fit(X, y).coef_` (source line 84): closed-form
ordinary-least-squares slope of `close` against the row index. -/
def slope (l : List ℚ) : ℚ := olsNum l / olsDen l.length

/-- `LinearRegression().fit(X, y).intercept_`. -/
def intercept (l : List ℚ) : ℚ :=
  (sumY l - slope l * sumX l.length) / (l.length : ℚ)

/-- `df["previsao"] = model.predict(X)` (source line 85): the fitted line
evaluated at each row index `0..n-1`. -/
def previsao (l : List ℚ) : List ℚ :=
  (List.range l.length).map fun i : ℕ => slope l * (i : ℚ) + intercept l

/-- Sum of squared residuals of the line `y = a·x + b` against the close
column; the quantity `LinearRegression` minimises. -/
def SSE (l : List ℚ) (a b : ℚ) : ℚ :=
  ∑ i ∈ Finset.range l.length, (l.getD i 0 - (a * (i : ℚ) + b)) ^ 2

/-- The enriched DataFrame `fetch_data` returns: the kept price columns plus
every derived column added on source lines 66-85. -/
structure IndicatorFrame where
  series : List PricePoint
  sma_20 : List (Option ℚ)
  ema_20 : List ℚ
  rsi : List (Option ℚ)
  macd : List ℚ
  cci : List (Option ℚ)
  adx : List ℚ
  bollinger_var : List (Option ℚ)
  compra : List Bool
  venda : List Bool
  previsao : List ℚ
deriving Repr, DecidableEq

/-- `pd.DataFrame()` — the empty frame every error branch returns. -/
def emptyFrame : IndicatorFrame := ⟨[], [], [], [], [], [], [], [], [], [], []⟩

/-- The indicator-enrichment block of `fetch_data` (source lines 65-85):
adds every derived column to a non-empty parsed series. -/
def enrich (s : List PricePoint) : IndicatorFrame :=
  ⟨s,
   sma_20 (closes s),
   ema_20 (closes s),
   rsi (closes s),
   macd (closes s),
   cci (highs s) (lows s) (closes s),
   adx (highs s) (lows s) (closes s),
   bollinger_var (closes s),
   compra (closes s),
   venda (closes s),
   previsao (closes s)⟩

/-- `fetch_data(interval)` (source lines 42-90) as a function of the HTTP
outcome.  Every failure branch — network error inside `requests.get`,
`raise_for_status()` (which raises exactly for client/server error statuses,
`400 ≤ status < 600`), a body that is not JSON, a JSON body that is not a
list, a list whose rows do not fit the 12-column shape, or an unparseable
price field — is caught by the enclosing `try/except` and yields
`pd.DataFrame()`; an empty parsed table returns early; otherwise the frame
is enriched.  The function is total: no branch escapes as an exception. -/
def fetch_data (interval : String) (outcome : FetchOutcome) : IndicatorFrame :=
  match outcome with
  | FetchOutcome.netErr => emptyFrame
  | FetchOutcome.ok resp =>
    if 400 ≤ resp.status ∧ resp.status < 600 then emptyFrame
    else
      match resp.body with
      | Payload.rows rs =>
        match parseRows rs with
        | some pts => if pts.isEmpty then emptyFrame else enrich pts
        | none => emptyFrame
      | _ => emptyFrame

/-- A plotly trace added by `update_chart`: a candlestick trace or a named
line (`go.Scatter(mode='lines')`).  The callback adds no other trace kind —
in particular no marker trace. -/
inductive Trace where
  | candlestick : Trace
  | line (name : String) : Trace
deriving Repr, DecidableEq

/-- The pair of outputs of the Dash callback: the figure (trace list plus
title) and the `error-message` text. -/
structure ChartOutput where
  traces : List Trace
  title : String
  errorMessage : String
deriving Repr, DecidableEq

/-- `update_chart(n, selected_interval, toggle_options)` (source lines
128-146), restricted to its figure-building logic: the fetched frame is the
`df` the callback computed.  An empty frame yields a figure with no traces
and an inline error text.  Otherwise traces are added for the
`candlestick`, `indicators` and `prediction` toggles; the `signals` toggle
appears in the layout's checklist but has no branch here. -/
def update_chart (frame : IndicatorFrame) (toggle_options : List String) :
    ChartOutput :=
  if frame.series.isEmpty then
    ⟨[], "Erro ao carregar dados", "Erro ao carregar dados. Tente outro intervalo."⟩
  else
    let t1 := if "candlestick" ∈ toggle_options then [Trace.candlestick] else []
    let t2 :=
      if "indicators" ∈ toggle_options then
        [Trace.line "SMA 20", Trace.line "EMA 20"]
      else []
    let t3 :=
      if "prediction" ∈ toggle_options then [Trace.line "Previsão"] else []
    ⟨t1 ++ t2 ++ t3, "Gráfico de Velas BTC/USDT - Indicadores Técnicos", ""⟩

theorem getD_range_map {α : Type} (f : ℕ → α) (n i : ℕ) (d : α) (h : i < n) :
    ((List.range n).map f).getD i d = f i := by
  rw [List.getD_eq_getElem _ _ (by simpa using h)]
  simp

theorem map_getD_of_lt {α β : Type} (f : α → β) (l : List α) (i : ℕ) (d : β)
    (h : i < l.length) : (l.map f).getD i d = f l[i] := by
  rw [List.getD_eq_getElem _ _ (by simpa using h), List.getElem_map]

theorem rsi_length (l : List ℚ) : (rsi l).length = l.length := by
  simp [rsi]

/-- Claim C4: the `ema_20` column satisfies the standard recursive EMA
definition with smoothing factor `2/21`, seeded with the first close value
(`EMA_0 = close_0`, `EMA_{n+1} = α·close_{n+1} + (1-α)·EMA_n`); in
particular a constant close series of value `v` has `ema_20 = v` at every
index. -/
theorem ema_20_recurrence (l : List ℚ) (c : ℚ) (cs : List ℚ) (v : ℚ)
    (m i : ℕ) (h : i + 1 < l.length) :
    (ema_20 (c :: cs)).getD 0 0 = c ∧
    (ema_20 l).getD (i + 1) 0 =
      2 / 21 * l.getD (i + 1) 0 + (1 - 2 / 21) * (ema_20 l).getD i 0 ∧
    ema_20 (List.replicate m v) = List.replicate m v :=
  ⟨ema_20_head c cs, ema_20_step l i h, ema_20_replicate m v⟩

/-- Witness for C4 at the concrete series `[1, 2]` (step at index 0), seed
series `[5]` and constant series `replicate 2 7`. -/
theorem ema_20_recurrence_witness :
    0 + 1 < ([1, 2] : List ℚ).length ∧
    ((ema_20 ([5] : List ℚ)).getD 0 0 = 5 ∧
     (ema_20 ([1, 2] : List ℚ)).getD (0 + 1) 0 =
       2 / 21 * ([1, 2] : List ℚ).getD (0 + 1) 0 +
         (1 - 2 / 21) * (ema_20 ([1, 2] : List ℚ)).getD 0 0 ∧
     ema_20 (List.replicate 2 (7 : ℚ)) = List.replicate 2 (7 : ℚ)) :=
  ⟨by decide, ema_20_recurrence [1, 2] 5 [] 7 2 0 (by decide)⟩

/-- Claim C6: for 21 points of constant close `100`, `sma_20` at index 20 is
exactly `100`; and on every input, `sma_20` is `none` at each of the first
19 indices (indices `0..18`), where the 20-period window lacks history. -/
theorem sma_20_window (l : List ℚ) (i : ℕ) (h19 : i < 19) (hlen : i < l.length) :
    (sma_20 (List.replicate 21 (100 : ℚ))).getD 20 none = some 100 ∧
    (sma_20 l).getD i none = none := by
  constructor
  · rw [sma_20, rollingMean, getD_range_map _ _ _ _ (by norm_num)]
    norm_num [List.drop_replicate, List.take_replicate, List.sum_replicate]
  · rw [sma_20, rollingMean, getD_range_map _ _ _ _ hlen, if_pos (by omega)]

/-- Witness for C6 at index 3 of a 5-point series. -/
theorem sma_20_window_witness :
    (3 < 19 ∧ 3 < ([1, 2, 3, 4, 5] : List ℚ).length) ∧
    ((sma_20 (List.replicate 21 (100 : ℚ))).getD 20 none = some 100 ∧
     (sma_20 ([1, 2, 3, 4, 5] : List ℚ)).getD 3 none = none) :=
  ⟨⟨by decide, by decide⟩, sma_20_window [1, 2, 3, 4, 5] 3 (by decide) (by decide)⟩

/-- Claim C2: in the enriched frame, `compra` is `true` at a row exactly when
that row's RSI is defined and strictly below 30, and `venda` is `true`
exactly when the RSI is defined and strictly above 70. -/
theorem compra_venda_match_rsi (s : List PricePoint) (i : ℕ) (h : i < s.length) :
    ((enrich s).compra.getD i false = true ↔
      ∃ r, (enrich s).rsi.getD i none = some r ∧ r < 30) ∧
    ((enrich s).venda.getD i false = true ↔
      ∃ r, (enrich s).rsi.getD i none = some r ∧ 70 < r) := by
  have hr : i < (rsi (closes s)).length := by
    rw [rsi_length]; simpa [closes] using h
  have hc : (enrich s).compra.getD i false =
      ((rsi (closes s)).map fun r =>
        match r with
        | some x => decide (x < 30)
        | none => false).getD i false := rfl
  have hv : (enrich s).venda.getD i false =
      ((rsi (closes s)).map fun r =>
        match r with
        | some x => decide (70 < x)
        | none => false).getD i false := rfl
  have hrs : (enrich s).rsi.getD i none = (rsi (closes s)).getD i none := rfl
  rw [hc, hv, hrs, map_getD_of_lt _ _ _ _ hr, map_getD_of_lt _ _ _ _ hr,
    List.getD_eq_getElem _ _ hr]
  rcases h2 : (rsi (closes s))[i] with _ | r
  · simp
  · simp

/-- Witness for C2 at row 0 of a concrete 1-point series. -/
theorem compra_venda_match_rsi_witness :
    0 < ([⟨0, 1, 1, 1, 1⟩] : List PricePoint).length ∧
    (((enrich [⟨0, 1, 1, 1, 1⟩]).compra.getD 0 false = true ↔
      ∃ r, (enrich [⟨0, 1, 1, 1, 1⟩]).rsi.getD 0 none = some r ∧ r < 30) ∧
     ((enrich [⟨0, 1, 1, 1, 1⟩]).venda.getD 0 false = true ↔
      ∃ r, (enrich [⟨0, 1, 1, 1, 1⟩]).rsi.getD 0 none = some r ∧ 70 < r)) :=
  ⟨by decide, compra_venda_match_rsi [⟨0, 1, 1, 1, 1⟩] 0 (by decide)⟩

/-- Claim C10: no row of the enriched frame has `compra` and `venda` both
`true`; and a row whose RSI is undefined (`none`) has both flags `false`. -/
theorem compra_venda_exclusive (s : List PricePoint) (i : ℕ) (h : i < s.length) :
    (¬((enrich s).compra.getD i false = true ∧
        (enrich s).venda.getD i false = true)) ∧
    ((enrich s).rsi.getD i none = none →
      (enrich s).compra.getD i false = false ∧
      (enrich s).venda.getD i false = false) := by
  have hr : i < (rsi (closes s)).length := by
    rw [rsi_length]; simpa [closes] using h
  have hc : (enrich s).compra.getD i false =
      ((rsi (closes s)).map fun r =>
        match r with
        | some x => decide (x < 30)
        | none => false).getD i false := rfl
  have hv : (enrich s).venda.getD i false =
      ((rsi (closes s)).map fun r =>
        match r with
        | some x => decide (70 < x)
        | none => false).getD i false := rfl
  have hrs : (enrich s).rsi.getD i none = (rsi (closes s)).getD i none := rfl
  rw [hc, hv, hrs, map_getD_of_lt _ _ _ _ hr, map_getD_of_lt _ _ _ _ hr,
    List.getD_eq_getElem _ _ hr]
  rcases h2 : (rsi (closes s))[i] with _ | r
  · simp
  · constructor
    · rintro ⟨h30, h70⟩
      simp only [decide_eq_true_eq] at h30 h70
      linarith
    · intro hnone
      exact absurd hnone (by simp)

/-- Witness for C10 at row 0 of a concrete 1-point series. -/
theorem compra_venda_exclusive_witness :
    0 < ([⟨0, 1, 1, 1, 1⟩] : List PricePoint).length ∧
    ((¬((enrich [⟨0, 1, 1, 1, 1⟩]).compra.getD 0 false = true ∧
        (enrich [⟨0, 1, 1, 1, 1⟩]).venda.getD 0 false = true)) ∧
     ((enrich [⟨0, 1, 1, 1, 1⟩]).rsi.getD 0 none = none →
       (enrich [⟨0, 1, 1, 1, 1⟩]).compra.getD 0 false = false ∧
       (enrich [⟨0, 1, 1, 1, 1⟩]).venda.getD 0 false = false)) :=
  ⟨by decide, compra_venda_exclusive [⟨0, 1, 1, 1, 1⟩] 0 (by decide)⟩

/-- Claim C9: the indicator enrichment is a pure, deterministic function of
the input series — equal inputs give identical frames, every derived column
included.  In the embedding `enrich` is a function with no state, mirroring
source lines 65-85, which read only the frame's own columns. -/
theorem enrich_deterministic (s₁ s₂ : List PricePoint) (h : s₁ = s₂) :
    enrich s₁ = enrich s₂ := by
  rw [h]

/-- Witness for C9 at a concrete 2-point series. -/
theorem enrich_deterministic_witness :
    ([⟨0, 1, 2, 3, 4⟩, ⟨1, 2, 3, 4, 5⟩] : List PricePoint) =
      [⟨0, 1, 2, 3, 4⟩, ⟨1, 2, 3, 4, 5⟩] ∧
    enrich [⟨0, 1, 2, 3, 4⟩, ⟨1, 2, 3, 4, 5⟩] =
      enrich [⟨0, 1, 2, 3, 4⟩, ⟨1, 2, 3, 4, 5⟩] :=
  ⟨rfl, enrich_deterministic [⟨0, 1, 2, 3, 4⟩, ⟨1, 2, 3, 4, 5⟩]
    [⟨0, 1, 2, 3, 4⟩, ⟨1, 2, 3, 4, 5⟩] rfl⟩

/-- Claim C7: on an empty fetched frame the refresh callback returns a chart
with zero traces together with the inline error message (and an empty
upstream payload `[]` does produce the empty frame).  `update_chart` is a
total function here, so no exception is raised. -/
theorem update_chart_empty_frame (frame : IndicatorFrame)
    (toggles : List String) (h : frame.series = []) :
    (update_chart frame toggles).traces = [] ∧
    (update_chart frame toggles).errorMessage =
      "Erro ao carregar dados. Tente outro intervalo." ∧
    fetch_data "5m" (FetchOutcome.ok ⟨200, Payload.rows []⟩) = emptyFrame := by
  refine ⟨?_, ?_, rfl⟩ <;> simp [update_chart, h]

/-- Witness for C7 at the empty frame with all layers toggled on. -/
theorem update_chart_empty_frame_witness :
    emptyFrame.series = ([] : List PricePoint) ∧
    ((update_chart emptyFrame
        ["candlestick", "indicators", "signals", "prediction"]).traces = [] ∧
     (update_chart emptyFrame
        ["candlestick", "indicators", "signals", "prediction"]).errorMessage =
       "Erro ao carregar dados. Tente outro intervalo." ∧
     fetch_data "5m" (FetchOutcome.ok ⟨200, Payload.rows []⟩) = emptyFrame) :=
  ⟨rfl, update_chart_empty_frame emptyFrame
    ["candlestick", "indicators", "signals", "prediction"] rfl⟩

/-- Claim C3 (code bug evidence): with the signals layer enabled on a
non-empty frame, `update_chart` adds no trace at all — the `signals`
checklist option declared in the layout has no branch in the callback, so no
signal marker is ever drawn. -/
theorem update_chart_signals_dead :
    (enrich [⟨0, 1, 1, 1, 1⟩]).series ≠ [] ∧
    (update_chart (enrich [⟨0, 1, 1, 1, 1⟩]) ["signals"]).traces = [] := by
  exact ⟨by simp [enrich], rfl⟩

/-- Claim C1 (amended): `fetch_data` is total (the enclosing `try/except`
catches every exception) and returns the empty frame on every failure
branch: network error, an HTTP status in `400..599` (exactly the statuses
`raise_for_status` raises for), a non-JSON body, a JSON body that is not a
list, a list of wrongly-shaped rows, and an unparseable price field. -/
theorem fetch_data_errors_empty (interval : String) (st : Nat) (body : Payload)
    (rs : List RawRow) (h4 : 400 ≤ st ∧ st < 600) (hp : parseRows rs = none) :
    fetch_data interval FetchOutcome.netErr = emptyFrame ∧
    fetch_data interval (FetchOutcome.ok ⟨st, body⟩) = emptyFrame ∧
    (∀ s2 : Nat, fetch_data interval (FetchOutcome.ok ⟨s2, Payload.notJson⟩) =
      emptyFrame) ∧
    (∀ s2 : Nat, fetch_data interval (FetchOutcome.ok ⟨s2, Payload.notList⟩) =
      emptyFrame) ∧
    (∀ s2 : Nat, fetch_data interval (FetchOutcome.ok ⟨s2, Payload.badShape⟩) =
      emptyFrame) ∧
    (∀ s2 : Nat, fetch_data interval (FetchOutcome.ok ⟨s2, Payload.rows rs⟩) =
      emptyFrame) := by
  refine ⟨rfl, ?_, ?_, ?_, ?_, ?_⟩
  · simp only [fetch_data, if_pos h4]
  · intro s2; by_cases h : 400 ≤ s2 ∧ s2 < 600 <;> simp [fetch_data, h]
  · intro s2; by_cases h : 400 ≤ s2 ∧ s2 < 600 <;> simp [fetch_data, h]
  · intro s2; by_cases h : 400 ≤ s2 ∧ s2 < 600 <;> simp [fetch_data, h]
  · intro s2; by_cases h : 400 ≤ s2 ∧ s2 < 600 <;> simp [fetch_data, h, hp]

/-- Witness for C1 at status 400, a non-list body, and a row whose price
fields do not parse. -/
theorem fetch_data_errors_empty_witness :
    ((400 ≤ 400 ∧ 400 < 600) ∧ parseRows [⟨0, none, none, none, none⟩] = none) ∧
    (fetch_data "5m" FetchOutcome.netErr = emptyFrame ∧
     fetch_data "5m" (FetchOutcome.ok ⟨400, Payload.notList⟩) = emptyFrame ∧
     (∀ s2 : Nat, fetch_data "5m" (FetchOutcome.ok ⟨s2, Payload.notJson⟩) =
       emptyFrame) ∧
     (∀ s2 : Nat, fetch_data "5m" (FetchOutcome.ok ⟨s2, Payload.notList⟩) =
       emptyFrame) ∧
     (∀ s2 : Nat, fetch_data "5m" (FetchOutcome.ok ⟨s2, Payload.badShape⟩) =
       emptyFrame) ∧
     (∀ s2 : Nat, fetch_data "5m"
       (FetchOutcome.ok ⟨s2, Payload.rows [⟨0, none, none, none, none⟩]⟩) =
       emptyFrame)) :=
  ⟨⟨by decide, rfl⟩,
   fetch_data_errors_empty "5m" 400 Payload.notList
     [⟨0, none, none, none, none⟩] (by decide) rfl⟩

/-- Counterexample to C1 as stated: a 3xx response (here status 301, which
is non-2xx) with a well-formed kline payload is not an error for
`raise_for_status` (it raises only for statuses ≥ 400), so `fetch_data`
returns a non-empty frame instead of the empty one the claim requires. -/
theorem fetch_data_non2xx_counterexample :
    (¬(200 ≤ 301 ∧ 301 ≤ 299)) ∧
    (fetch_data "5m" (FetchOutcome.ok
        ⟨301, Payload.rows [⟨0, some 1, some 1, some 1, some 1⟩]⟩)).series =
      [⟨0, 1, 1, 1, 1⟩] :=
  ⟨by decide, rfl⟩

theorem parseRow_time (r : RawRow) (p : PricePoint) (h : parseRow r = some p) :
    p.time = r.openTime := by
  rcases r with ⟨t, o, hi, lo, c⟩
  cases o <;> cases hi <;> cases lo <;> cases c <;>
    simp only [parseRow] at h <;> cases h <;> rfl

theorem parseRows_sound (rs : List RawRow) (ps : List PricePoint)
    (h : parseRows rs = some ps) :
    ps.length = rs.length ∧ ps.map PricePoint.time = rs.map RawRow.openTime := by
  induction rs generalizing ps with
  | nil =>
    simp only [parseRows, Option.some.injEq] at h
    subst h
    simp
  | cons r rest ih =>
    unfold parseRows at h
    rcases hr : parseRow r with _ | p <;> rw [hr] at h
    · simp at h
    · rcases hps : parseRows rest with _ | ps' <;> rw [hps] at h
      · simp at h
      · simp only [Option.some.injEq] at h
        subst h
        obtain ⟨hl, ht⟩ := ih ps' hps
        refine ⟨by simp [hl], ?_⟩
        simp [ht, parseRow_time r p hr]

/-- Claim C5: when the upstream payload honours the documented kline
contract — at most the requested `limit = 100` rows, strictly increasing
open times — a successful fetch returns a series of length at most 100 with
strictly increasing timestamps (the shaping step preserves both, and every
failure branch returns the empty series, which satisfies both trivially). -/
theorem fetch_data_limit_monotone (interval : String) (st : Nat)
    (rs : List RawRow) (hlen : rs.length ≤ 100)
    (hmono : List.Chain' (· < ·) (rs.map RawRow.openTime)) :
    (fetch_data interval (FetchOutcome.ok ⟨st, Payload.rows rs⟩)).series.length
      ≤ 100 ∧
    List.Chain' (· < ·)
      ((fetch_data interval
        (FetchOutcome.ok ⟨st, Payload.rows rs⟩)).series.map PricePoint.time) := by
  unfold fetch_data
  by_cases h4 : 400 ≤ st ∧ st < 600
  · simp [h4, emptyFrame]
  · simp only [if_neg h4]
    rcases hps : parseRows rs with _ | ps
    · simp [emptyFrame]
    · obtain ⟨hl, ht⟩ := parseRows_sound rs ps hps
      cases ps with
      | nil => simp [emptyFrame]
      | cons p ps' =>
        simp only [List.isEmpty_cons, if_neg]
        constructor
        · show (p :: ps').length ≤ 100
          rw [hl]; exact hlen
        · show List.Chain' (· < ·) ((p :: ps').map PricePoint.time)
          rw [ht]; exact hmono

/-- Witness for C5 at a concrete two-row payload with increasing times. -/
theorem fetch_data_limit_monotone_witness :
    (([⟨0, some 1, some 1, some 1, some 1⟩, ⟨1, some 2, some 2, some 2, some 2⟩] :
        List RawRow).length ≤ 100 ∧
     List.Chain' (· < ·)
       (([⟨0, some 1, some 1, some 1, some 1⟩,
           ⟨1, some 2, some 2, some 2, some 2⟩] : List RawRow).map
         RawRow.openTime)) ∧
    ((fetch_data "5m" (FetchOutcome.ok ⟨200, Payload.rows
        [⟨0, some 1, some 1, some 1, some 1⟩,
         ⟨1, some 2, some 2, some 2, some 2⟩]⟩)).series.length ≤ 100 ∧
     List.Chain' (· < ·)
       ((fetch_data "5m" (FetchOutcome.ok ⟨200, Payload.rows
          [⟨0, some 1, some 1, some 1, some 1⟩,
           ⟨1, some 2, some 2, some 2, some 2⟩]⟩)).series.map
         PricePoint.time)) :=
  ⟨⟨by decide, by norm_num [List.chain'_cons]⟩,
   fetch_data_limit_monotone "5m" 200
     [⟨0, some 1, some 1, some 1, some 1⟩, ⟨1, some 2, some 2, some 2, some 2⟩]
     (by decide) (by norm_num [List.chain'_cons])⟩

theorem sumX_eq (n : ℕ) : sumX n = (n : ℚ) * ((n : ℚ) - 1) / 2 := by
  induction n with
  | zero => simp [sumX]
  | succ k ih =>
    rw [sumX, Finset.sum_range_succ, ← sumX, ih]
    push_cast
    ring

theorem sumX2_eq (n : ℕ) :
    sumX2 n = (n : ℚ) * ((n : ℚ) - 1) * (2 * (n : ℚ) - 1) / 6 := by
  induction n with
  | zero => simp [sumX2]
  | succ k ih =>
    rw [sumX2, Finset.sum_range_succ, ← sumX2, ih]
    push_cast
    ring

theorem olsDen_eq (n : ℕ) :
    olsDen n = (n : ℚ) ^ 2 * ((n : ℚ) - 1) * ((n : ℚ) + 1) / 12 := by
  rw [olsDen, sumX_eq, sumX2_eq]
  ring

theorem olsDen_pos (n : ℕ) (h : 2 ≤ n) : 0 < olsDen n := by
  have h' : (2 : ℚ) ≤ (n : ℚ) := by exact_mod_cast h
  rw [olsDen_eq]
  have h1 : (0 : ℚ) < (n : ℚ) - 1 := by linarith
  have h2 : (0 : ℚ) < (n : ℚ) + 1 := by linarith
  have h0 : (0 : ℚ) < (n : ℚ) ^ 2 := by positivity
  have h12 : (0 : ℚ) < 12 := by norm_num
  exact div_pos (mul_pos (mul_pos h0 h1) h2) h12

theorem olsNum_eq_slope_mul (l : List ℚ) (h : 1 ≤ l.length) :
    olsNum l = slope l * olsDen l.length := by
  by_cases hd : olsDen l.length = 0
  · have hn1 : l.length = 1 := by
      rcases Nat.lt_or_ge l.length 2 with h2 | h2
      · omega
      · exact absurd hd (olsDen_pos _ h2).ne'
    rw [slope, hd, div_zero, zero_mul]
    simp [olsNum, sumXY, sumX, hn1, Finset.sum_range_one]
  · rw [slope, div_mul_cancel₀ _ hd]

theorem residual_sum_zero (l : List ℚ) (h : 1 ≤ l.length) :
    ∑ i ∈ Finset.range l.length,
      (l.getD i 0 - (slope l * (i : ℚ) + intercept l)) = 0 := by
  have hn : ((l.length : ℚ)) ≠ 0 := Nat.cast_ne_zero.mpr (by omega)
  have e : ∀ j ∈ Finset.range l.length,
      l.getD j 0 - (slope l * (j : ℚ) + intercept l) =
        l.getD j 0 - slope l * (j : ℚ) - intercept l := fun j _ => by ring
  have hsplit : ∑ i ∈ Finset.range l.length,
      (l.getD i 0 - (slope l * (i : ℚ) + intercept l)) =
        sumY l - slope l * sumX l.length - (l.length : ℚ) * intercept l := by
    rw [Finset.sum_congr rfl e, Finset.sum_sub_distrib, Finset.sum_sub_distrib,
      ← Finset.mul_sum, Finset.sum_const, Finset.card_range, nsmul_eq_mul,
      sumY, sumX]
  rw [hsplit, intercept]
  field_simp

theorem weighted_residual_sum_zero (l : List ℚ) (h : 1 ≤ l.length) :
    ∑ i ∈ Finset.range l.length,
      (i : ℚ) * (l.getD i 0 - (slope l * (i : ℚ) + intercept l)) = 0 := by
  have hn : ((l.length : ℚ)) ≠ 0 := Nat.cast_ne_zero.mpr (by omega)
  have e : ∀ j ∈ Finset.range l.length,
      (j : ℚ) * (l.getD j 0 - (slope l * (j : ℚ) + intercept l)) =
        (j : ℚ) * l.getD j 0 - slope l * (j : ℚ) ^ 2 -
          intercept l * (j : ℚ) := fun j _ => by ring
  have hsplit : ∑ i ∈ Finset.range l.length,
      (i : ℚ) * (l.getD i 0 - (slope l * (i : ℚ) + intercept l)) =
        sumXY l - slope l * sumX2 l.length - intercept l * sumX l.length := by
    rw [Finset.sum_congr rfl e, Finset.sum_sub_distrib, Finset.sum_sub_distrib,
      ← Finset.mul_sum, ← Finset.mul_sum, sumXY, sumX2, sumX]
  have ht : (l.length : ℚ) * intercept l = sumY l - slope l * sumX l.length := by
    rw [intercept]
    field_simp
  have hnum := olsNum_eq_slope_mul l h
  have key : (l.length : ℚ) *
      (sumXY l - slope l * sumX2 l.length - intercept l * sumX l.length) = 0 := by
    have expand : (l.length : ℚ) * sumXY l -
        slope l * ((l.length : ℚ) * sumX2 l.length) -
        (sumY l - slope l * sumX l.length) * sumX l.length =
          olsNum l - slope l * olsDen l.length := by
      rw [olsNum, olsDen]
      ring
    linear_combination expand + hnum - sumX l.length * ht
  rw [hsplit]
  rcases mul_eq_zero.mp key with h0 | h0
  · exact absurd h0 hn
  · exact h0

/-- Claim C8: the `previsao` column is the ordinary-least-squares fit of
`close` against the row indices `0..n-1` evaluated at those same indices:
each entry is `slope·i + intercept`, and that line minimises the sum of
squared residuals over all lines `a·x + b` (an in-sample fit). -/
theorem previsao_ols (l : List ℚ) (h : 1 ≤ l.length) (a b : ℚ) (i : ℕ)
    (hi : i < l.length) :
    (previsao l).getD i 0 = slope l * (i : ℚ) + intercept l ∧
    SSE l (slope l) (intercept l) ≤ SSE l a b := by
  constructor
  · rw [previsao, getD_range_map _ _ _ _ hi]
  · have NE1 := residual_sum_zero l h
    have NE2 := weighted_residual_sum_zero l h
    have key : SSE l a b = SSE l (slope l) (intercept l) +
        ∑ j ∈ Finset.range l.length,
          ((slope l - a) * (j : ℚ) + (intercept l - b)) ^ 2 := by
      rw [SSE, SSE]
      have e : ∀ j ∈ Finset.range l.length,
          (l.getD j 0 - (a * (j : ℚ) + b)) ^ 2 =
            (l.getD j 0 - (slope l * (j : ℚ) + intercept l)) ^ 2 +
              (2 * (slope l - a)) *
                ((j : ℚ) * (l.getD j 0 - (slope l * (j : ℚ) + intercept l))) +
              (2 * (intercept l - b)) *
                (l.getD j 0 - (slope l * (j : ℚ) + intercept l)) +
              ((slope l - a) * (j : ℚ) + (intercept l - b)) ^ 2 :=
        fun j _ => by ring
      rw [Finset.sum_congr rfl e, Finset.sum_add_distrib, Finset.sum_add_distrib,
        Finset.sum_add_distrib, ← Finset.mul_sum, ← Finset.mul_sum, NE1, NE2]
      ring
    have hnn : 0 ≤ ∑ j ∈ Finset.range l.length,
        ((slope l - a) * (j : ℚ) + (intercept l - b)) ^ 2 :=
      Finset.sum_nonneg fun j _ => sq_nonneg _
    linarith [key, hnn]

/-- Witness for C8 at the concrete close series `[1, 2]`, index 0, against
the competing line `y = 0`. -/
theorem previsao_ols_witness :
    (1 ≤ ([1, 2] : List ℚ).length ∧ 0 < ([1, 2] : List ℚ).length) ∧
    ((previsao ([1, 2] : List ℚ)).getD 0 0 =
        slope ([1, 2] : List ℚ) * ((0 : ℕ) : ℚ) + intercept ([1, 2] : List ℚ) ∧
     SSE ([1, 2] : List ℚ) (slope ([1, 2] : List ℚ))
        (intercept ([1, 2] : List ℚ)) ≤ SSE ([1, 2] : List ℚ) 0 0) :=
  ⟨⟨by decide, by decide⟩, previsao_ols [1, 2] (by decide) 0 0 0 (by decide)⟩

end CryptoCandles
